import Mathlib

/-!
Verification development for the dela streaming session layer
(mino/minogrpc/session) and the block-synchronization protocol
(core/ordering/cosipbft/blocksync/default.go).

The Go code is shallowly embedded: the effectful session operations are
translated into pure Lean functions over explicit environments that record
the outcome of each external interaction (serialization, queue pushes,
routing-table calls, relay sends).  Concurrent legs spawned by
`sendPacket` are sequentialized in route order; the error channel of a
`Send` call is embedded as the list of events that are pushed on it, in
the order the sequentialized execution pushes them.
-/

namespace Dela

/-- Error messages are plain strings, mirroring Go error values. -/
abbrev ErrMsg := String

/-- Peer addresses.  A `wrap` address corresponds to the session package
`wrapAddress`, which hides the original sender behind the orchestrator;
`base` is any ordinary mino address. -/
inductive Address : Type where
  | base (id : Nat)
  | wrap (inner : Address)
deriving DecidableEq, Repr

/-- Rendering of an address, used where the Go code formats an address
into an error message. -/
def Address.str : Address → String
  | .base n => "addr" ++ toString n
  | .wrap a => "wrap-" ++ Address.str a

/-- Modelled from the spec: `wrapAddress.Unwrap` returns the inner
address hidden by the wrapper (the `session/addr.go` file is not under
src/; the spec says a wrapped address hides the original sender).  The
`Send` loop of session.go applies exactly one unwrapping step to the
arguments that are wrapped and leaves every other address unchanged. -/
def unwrapOne : Address → Address
  | .wrap a => a
  | a => a

/-- Modelled from the spec: `newWrapAddress` wraps a source address so
that consumers of `Recv` see the original high-level source. -/
def newWrapAddress (a : Address) : Address :=
  Address.wrap a

/-- A routed packet: source, destination list and opaque payload
(router.Packet as consumed by session.go). -/
structure Packet : Type where
  source : Address
  dests : List Address
  payload : List Nat
deriving DecidableEq, Repr

/-- One event observable on the error channel returned by `Send`:
either an error value pushed on the channel or the closing of the
channel. -/
inductive ChanEvent : Type where
  | err (e : ErrMsg)
  | closed
deriving DecidableEq, Repr

/-- Side effects of the send path on the session and its collaborators,
recorded so that absence of effects can be stated (claim about
serialization failures). -/
inductive Effect : Type where
  | queuePush (p : Packet)
  | relaySetupAttempt (a : Address)
  | relaySend (dst : Option Address) (p : Packet)
deriving DecidableEq, Repr

/-- Message built by session.go for a packet dropped by the local queue:
`"%v dropped the packet: %v"` with the session address and the queue
error. -/
def dropMsg (me : Address) (e : ErrMsg) : ErrMsg :=
  me.str ++ " dropped the packet: " ++ e

/-- Message built by session.go for a voided destination and for a
routing table that cannot reroute: `"no route to %v: %v"`. -/
def noRouteMsg (a : Address) (e : ErrMsg) : ErrMsg :=
  "no route to " ++ a.str ++ ": " ++ e

/-- Message built by session.go when the parent relay send fails:
`"session %v is closing: %v"`. -/
def closingMsg (me : Address) (code : ErrMsg) : ErrMsg :=
  "session " ++ me.str ++ " is closing: " ++ code

/-- Message pushed by `Send` when no parent accepted the packet. -/
def packetIgnoredMsg : ErrMsg :=
  "packet ignored"

/-- Message built by `Send` when the message cannot be serialized:
`"failed to serialize msg: %v"`. -/
def serializeFailMsg (e : ErrMsg) : ErrMsg :=
  "failed to serialize msg: " ++ e

/-- Message built by `RecvPacket` when the wire packet cannot be
deserialized: `"packet malformed: %v"`. -/
def malformedMsg (e : ErrMsg) : ErrMsg :=
  "packet malformed: " ++ e

/-- Message built by `RecvPacket` when no parent accepted the packet:
`"packet is dropped (tried %d parent-s)"`. -/
def packetDroppedMsg (n : Nat) : ErrMsg :=
  "packet is dropped (tried " ++ toString n ++ " parent-s)"

mutual
/-- Environment of one `session.sendPacket` call: the outcome of
`pkt.Slice(s.me)` (`slice`), of the queue push when the slice is
non-nil (`pushErr`, `none` meaning success), of `parent.table.Forward`
(`voids` in iteration order, `routes` in iteration order with the
downstream outcome of each leg). -/
inductive PacketEnv : Type where
  | mk (slice : Option Packet) (pushErr : Option ErrMsg)
       (voids : List (Address × ErrMsg)) (routes : RouteList)

/-- The routes map returned by `Forward`, in iteration order.  A key
equal to the nil address sends back through the parent relay
(`consParent`); any other key is a child next-hop (`consChild`). -/
inductive RouteList : Type where
  | nil
  | consParent (pkt : Packet) (res : Except ErrMsg (List ErrMsg))
      (rest : RouteList)
  | consChild (gw : Address) (pkt : Packet) (out : ChildEnv)
      (rest : RouteList)

/-- Outcome of one `session.sendTo` leg towards a child next-hop:
either `setupRelay` failed, or the relay send succeeded with the ack
errors of the remote end, or the relay send failed. -/
inductive ChildEnv : Type where
  | setupErr (e : ErrMsg) (fh : FailEnv)
  | sendOk (ackErrs : List ErrMsg)
  | sendErr (e : ErrMsg) (fh : FailEnv)

/-- Outcome of `session.onFailure` after a child leg failed: either
`table.OnFailure` itself returned an error, or it succeeded and the
packet is retried through a recursive `sendPacket` whose environment is
`retry`. -/
inductive FailEnv : Type where
  | tableErr (e : ErrMsg)
  | rerouted (retry : PacketEnv)
end

mutual
/-- Embedding of `session.sendPacket` (session.go).  Returns the list
of errors pushed on the channel during the call, in sequentialized
order, and the boolean the Go function returns. -/
def sendPacketModel (me : Address) : PacketEnv → List ErrMsg × Bool
  | .mk slice pushErr voids routes =>
    let qErrs : List ErrMsg :=
      match slice with
      | none => []
      | some _ =>
        match pushErr with
        | none => []
        | some e => [dropMsg me e]
    let vErrs : List ErrMsg := voids.map (fun av => noRouteMsg av.1 av.2)
    match routes, voids with
    | .nil, [] => (qErrs, slice.isSome)
    | rs, _ => (qErrs ++ vErrs ++ sendRoutesModel me rs, true)

/-- Embedding of the loop of `sendTo` goroutines spawned by
`sendPacket`, sequentialized in route order. -/
def sendRoutesModel (me : Address) : RouteList → List ErrMsg
  | .nil => []
  | .consParent _pkt res rest =>
    (match res with
     | .ok ackErrs => ackErrs
     | .error code => [closingMsg me code]) ++ sendRoutesModel me rest
  | .consChild gw pkt out rest =>
    sendChildModel me gw pkt out ++ sendRoutesModel me rest

/-- Embedding of one `session.sendTo` leg towards a child next-hop. -/
def sendChildModel (me gw : Address) (pkt : Packet) : ChildEnv → List ErrMsg
  | .setupErr _e fh => onFailureModel me gw pkt fh
  | .sendOk ackErrs => ackErrs
  | .sendErr _e fh => onFailureModel me gw pkt fh

/-- Embedding of `session.onFailure`: report an unreachable gateway or
retry the packet along the recomputed routes. -/
def onFailureModel (me gw : Address) (_pkt : Packet) : FailEnv → List ErrMsg
  | .tableErr e => [noRouteMsg gw e]
  | .rerouted retry => (sendPacketModel me retry).1
end

mutual
/-- Side effects of one `sendPacket` call: the queue push attempt for a
non-nil slice and the effects of every leg. -/
def packetEffects : PacketEnv → List Effect
  | .mk slice _pushErr _voids routes =>
    (match slice with
     | none => []
     | some p => [Effect.queuePush p]) ++ routeEffects routes

/-- Side effects of the legs of a route list. -/
def routeEffects : RouteList → List Effect
  | .nil => []
  | .consParent pkt _res rest =>
    Effect.relaySend none pkt :: routeEffects rest
  | .consChild gw pkt out rest =>
    Effect.relaySetupAttempt gw :: (childEffects gw pkt out ++ routeEffects rest)

/-- Side effects of one child leg. -/
def childEffects (gw : Address) (pkt : Packet) : ChildEnv → List Effect
  | .setupErr _e fh => failEffects fh
  | .sendOk _ => [Effect.relaySend (some gw) pkt]
  | .sendErr _e fh => Effect.relaySend (some gw) pkt :: failEffects fh

/-- Side effects of the failure handling of a child leg. -/
def failEffects : FailEnv → List Effect
  | .tableErr _ => []
  | .rerouted retry => packetEffects retry
end

/-- Environment of one `session.Send` call: the outcome of
`msg.Serialize`, the caller-supplied address slice, and the `sendPacket`
environment for each parent in map iteration order. -/
structure SendEnv : Type where
  serializeRes : Except ErrMsg (List Nat)
  addrs : List Address
  parents : List PacketEnv

/-- Result of one `session.Send` call in the embedding: the trace of
events on the returned error channel, the side effects performed, and
the content of the caller-supplied address slice after the call (the
variadic slice shares its backing array with the caller, so the
unwrapping loop of `Send` is visible to the caller). -/
structure SendResult : Type where
  trace : List ChanEvent
  effects : List Effect
  finalAddrs : List Address
deriving DecidableEq, Repr

/-- Embedding of the parent loop of `session.Send`: try each parent in
order, accumulating the errors pushed on the shared channel, stopping
at the first parent whose `sendPacket` returns true. -/
def trySendParents (me : Address) : List PacketEnv → List ErrMsg × List Effect × Bool
  | [] => ([], [], false)
  | env :: rest =>
    let r := sendPacketModel me env
    let effs := packetEffects env
    if r.2 then (r.1, effs, true)
    else
      let next := trySendParents me rest
      (r.1 ++ next.1, effs ++ next.2.1, next.2.2)

/-- Embedding of `session.Send` (session.go).  The unwrapping loop runs
before the goroutine; the goroutine serializes the message, iterates
the parents, pushes `"packet ignored"` when none accepted, and the
deferred close ends the trace. -/
def sendModel (me : Address) (env : SendEnv) : SendResult :=
  let finalAddrs := env.addrs.map unwrapOne
  match env.serializeRes with
  | .error e =>
    { trace := [ChanEvent.err (serializeFailMsg e), ChanEvent.closed]
      effects := []
      finalAddrs := finalAddrs }
  | .ok _data =>
    let r := trySendParents me env.parents
    { trace := r.1.map ChanEvent.err
        ++ (if r.2.2 then [] else [ChanEvent.err packetIgnoredMsg])
        ++ [ChanEvent.closed]
      effects := r.2.1
      finalAddrs := finalAddrs }

/-- Environment of one `session.RecvPacket` call: the outcome of
`pktFac.PacketOf` and the `sendPacket` environment for each parent in
map iteration order. -/
structure RecvPacketEnv : Type where
  deserializeRes : Except ErrMsg Packet
  parents : List PacketEnv

/-- Embedding of the parent loop of `RecvPacket`: each parent gets a
fresh error channel; the first parent whose `sendPacket` returns true
yields the ack, built from exactly the errors pushed on that channel. -/
def tryRecvParents (me : Address) : List PacketEnv → Option (List ErrMsg)
  | [] => none
  | env :: rest =>
    let r := sendPacketModel me env
    if r.2 then some r.1 else tryRecvParents me rest

/-- Embedding of `session.RecvPacket` (session.go).  Returns the ack
error list on success, or the error the Go function returns. -/
def recvPacketModel (me : Address) (env : RecvPacketEnv) : Except ErrMsg (List ErrMsg) :=
  match env.deserializeRes with
  | .error e => Except.error (malformedMsg e)
  | .ok _pkt =>
    match tryRecvParents me env.parents with
    | some ackErrs => Except.ok ackErrs
    | none => Except.error (packetDroppedMsg env.parents.length)

/-- State of a Go channel for the purpose of `close`: open or closed. -/
inductive ChanState : Type where
  | openCh
  | closedCh
deriving DecidableEq, Repr

/-- Go runtime semantics of `close(ch)`: closing an open channel closes
it; closing an already-closed channel panics with
`"close of closed channel"`. -/
def goCloseChan : ChanState → Except ErrMsg ChanState
  | .openCh => Except.ok ChanState.closedCh
  | .closedCh => Except.error "close of closed channel"

/-- Embedding of `session.Close` (session.go): it runs `close(s.errs)`
on the errs channel created open by `NewSession` and then waits on the
waitgroup (the wait does not change the channel state). -/
def sessionCloseModel (errsState : ChanState) : Except ErrMsg ChanState :=
  goCloseChan errsState

/-- State of the gRPC stream underlying a relay: whether the dynamic
type is a `ptypes.Overlay_StreamClient` (a client stream on which
`CloseSend` is available) and whether its send direction has been
half-closed. -/
structure StreamState : Type where
  isClientStream : Bool
  halfClosed : Bool
deriving DecidableEq, Repr

/-- Modelled from the spec: gRPC `CloseSend` half-closes the send
direction of a client stream and returns nil; calling it again on an
already half-closed stream is a no-op returning nil. -/
def closeSend (st : StreamState) : StreamState × Option ErrMsg :=
  ({ st with halfClosed := true }, none)

/-- Embedding of `streamRelay.Close` (session.go): it returns nil and
touches nothing, as the relay is not responsible for closing the
stream. -/
def streamRelayClose (st : StreamState) : StreamState × Option ErrMsg :=
  (st, none)

/-- Embedding of `unicastRelay.Close` (session.go): when the stream is
an `Overlay_StreamClient` it calls `CloseSend`, wrapping a failure as
`"failed to close stream: %v"`; otherwise it does nothing. -/
def unicastRelayClose (st : StreamState) : StreamState × Option ErrMsg :=
  if st.isClientStream then
    let r := closeSend st
    match r.2 with
    | some e => (r.1, some ("failed to close stream: " ++ e))
    | none => (r.1, none)
  else (st, none)

/-- Embedding of the latest-index update in `handler.Stream`
(blocksync/default.go lines 206-208): the announced index is stored
only when it is strictly greater than the current value; the update
runs under the handler lock, so successive updates are serialized. -/
def updateLatest (latest announced : Nat) : Nat :=
  if announced > latest then announced else latest

/-- Value returned by `defaultSync.GetLatest` after the handler has
processed a sequence of announced indices, starting from the initial
`Blocks.Len()` value. -/
def latestAfter (init : Nat) (anns : List Nat) : Nat :=
  anns.foldl updateLatest init

/-- Messages received by the `defaultSync.routine` loop, as the type
switch of blocksync/default.go distinguishes them. -/
inductive SyncInMsg : Type where
  | request (fromIdx : Nat)
  | ack
  | other
deriving DecidableEq, Repr

/-- Progress event published by `sendToChannel` to the channel returned
by `Sync`. -/
structure SyncEvent : Type where
  soft : Nat
  hard : Nat
  errs : List ErrMsg
deriving DecidableEq, Repr

/-- Insertion into a set-like Go map whose keys are addresses. -/
def insertAddr (a : Address) (l : List Address) : List Address :=
  if a ∈ l then l else l ++ [a]

/-- Environment of one `defaultSync.Sync` call: the outcome of opening
the stream, the non-nil errors the announcement broadcast reports on
its error channel, the number of players, the successive outcomes of
`rcvr.Recv`, and the outcome of `syncNode` for a request of a given
peer (an exhausted `msgs` list stands for a receiver that fails). -/
structure RoutineEnv : Type where
  streamErr : Option ErrMsg
  annErrs : List ErrMsg
  playersLen : Nat
  msgs : List (Except ErrMsg (Address × SyncInMsg))
  syncNodeRes : Address → Nat → Option ErrMsg

/-- Embedding of the receive loop of `defaultSync.routine`
(blocksync/default.go lines 115-148): processes messages while fewer
than `playersLen` peers are hard-synchronized, maintaining the `soft`
and `hard` sets and the `hardErrs` slice, and recording every event
passed to `sendToChannel`. -/
def routineLoop (env : RoutineEnv) :
    List (Except ErrMsg (Address × SyncInMsg)) → List Address → List Address →
    List ErrMsg → List SyncEvent × Option ErrMsg
  | msgs, soft, hard, hardErrs =>
    if env.playersLen ≤ hard.length then ([], none)
    else
      match msgs with
      | [] => ([], some ("receiver failed: " ++ "no more messages"))
      | Except.error e :: _ => ([], some ("receiver failed: " ++ e))
      | Except.ok (fromA, m) :: rest =>
        match m with
        | .request n =>
          if fromA ∈ soft then routineLoop env rest soft hard hardErrs
          else
            let soft2 := insertAddr fromA soft
            let ev1 : SyncEvent := ⟨soft2.length, hard.length, hardErrs⟩
            match env.syncNodeRes fromA n with
            | some e =>
              let hard2 := insertAddr fromA hard
              let errs2 := hardErrs ++ [e]
              let ev2 : SyncEvent := ⟨soft2.length, hard2.length, errs2⟩
              let r := routineLoop env rest soft2 hard2 errs2
              (ev1 :: ev2 :: r.1, r.2)
            | none =>
              let r := routineLoop env rest soft2 hard hardErrs
              (ev1 :: r.1, r.2)
        | .ack =>
          let soft2 := insertAddr fromA soft
          let hard2 := insertAddr fromA hard
          let ev : SyncEvent := ⟨soft2.length, hard2.length, hardErrs⟩
          let r := routineLoop env rest soft2 hard2 hardErrs
          (ev :: r.1, r.2)
        | .other => routineLoop env rest soft hard hardErrs

/-- Embedding of `defaultSync.routine` (blocksync/default.go): open the
stream, broadcast the announcement and return on the first non-nil
error of its error channel, then run the receive loop. -/
def routineModel (env : RoutineEnv) : List SyncEvent × Option ErrMsg :=
  match env.streamErr with
  | some e => ([], some ("stream failed: " ++ e))
  | none =>
    match env.annErrs with
    | e :: _ => ([], some ("announcement failed: " ++ e))
    | [] => routineLoop env env.msgs [] [] []

/-- Embedding of `defaultSync.Sync` (blocksync/default.go): the routine
runs in a goroutine and the returned channel is closed when it ends,
whatever the outcome.  The boolean records that the channel is closed. -/
def syncModel (env : RoutineEnv) : List SyncEvent × Bool :=
  ((routineModel env).1, true)

/-! Helper lemmas shared by the claim theorems. -/

/-- A `sendPacket` call that returns false pushed nothing on the error
channel: false is only returned when routes and voids are empty and the
local slice was nil, in which case neither the queue push, nor the
voids, nor any leg produced an error. -/
theorem sendPacketModel_false_no_errs (me : Address) (env : PacketEnv)
    (h : (sendPacketModel me env).2 = false) :
    (sendPacketModel me env).1 = [] := by
  cases env with
  | mk slice pushErr voids routes =>
    cases routes with
    | nil =>
      cases voids with
      | nil =>
        cases slice with
        | none => simp [sendPacketModel]
        | some p => simp [sendPacketModel] at h
      | cons hd tl => simp [sendPacketModel] at h
    | consParent pkt res rest => simp [sendPacketModel] at h
    | consChild gw pkt out rest => simp [sendPacketModel] at h

/-- When every parent refuses the packet, the `Send` parent loop
accumulates no error and reports failure. -/
theorem trySendParents_all_false (me : Address) (ps : List PacketEnv)
    (h : ∀ p ∈ ps, (sendPacketModel me p).2 = false) :
    trySendParents me ps = ([], (trySendParents me ps).2.1, false) := by
  induction ps with
  | nil => rfl
  | cons p t ih =>
    have hp : (sendPacketModel me p).2 = false := h p (List.mem_cons_self p t)
    have hperrs := sendPacketModel_false_no_errs me p hp
    have ht := ih (fun q hq => h q (List.mem_cons_of_mem p hq))
    have ht1 : (trySendParents me t).1 = [] := by
      simpa using congrArg Prod.fst ht
    have ht2 : (trySendParents me t).2.2 = false := by
      simpa using congrArg (fun r => r.2.2) ht
    simp [trySendParents, hp, hperrs, ht1, ht2]

/-- A list of error events contains no close event. -/
theorem count_closed_map_err (es : List ErrMsg) :
    (es.map ChanEvent.err).count ChanEvent.closed = 0 := by
  induction es with
  | nil => rfl
  | cons e t ih => simpa [List.count_cons] using ih

/-- The `RecvPacket` parent loop returns the errors of the first
accepting parent. -/
theorem tryRecvParents_first (me : Address) (pre : List PacketEnv)
    (acc : PacketEnv) (post : List PacketEnv)
    (hpre : ∀ p ∈ pre, (sendPacketModel me p).2 = false)
    (hacc : (sendPacketModel me acc).2 = true) :
    tryRecvParents me (pre ++ acc :: post) = some (sendPacketModel me acc).1 := by
  induction pre with
  | nil => simp [tryRecvParents, hacc]
  | cons p t ih =>
    have hp : (sendPacketModel me p).2 = false := hpre p (List.mem_cons_self p t)
    have := ih (fun q hq => hpre q (List.mem_cons_of_mem p hq))
    simpa [tryRecvParents, hp] using this

/-- The `RecvPacket` parent loop fails when every parent refuses. -/
theorem tryRecvParents_none (me : Address) (ps : List PacketEnv)
    (h : ∀ p ∈ ps, (sendPacketModel me p).2 = false) :
    tryRecvParents me ps = none := by
  induction ps with
  | nil => rfl
  | cons p t ih =>
    have hp : (sendPacketModel me p).2 = false := h p (List.mem_cons_self p t)
    have := ih (fun q hq => h q (List.mem_cons_of_mem p hq))
    simpa [tryRecvParents, hp] using this

/-- The initial value never exceeds the folded latest counter. -/
theorem le_foldl_updateLatest (l : List Nat) (init : Nat) :
    init ≤ l.foldl updateLatest init := by
  induction l generalizing init with
  | nil => exact Nat.le_refl init
  | cons a t ih =>
    refine Nat.le_trans ?_ (ih (updateLatest init a))
    unfold updateLatest
    by_cases h : a > init
    · simpa [h] using Nat.le_of_lt h
    · simp [h]

/-! Claim theorems. -/

/-- Claim C1: the spec requires `session.Close` to be idempotent, the
second call acting as a no-op.  The code evaluated at the failing input
shows otherwise: the first `Close` on a fresh session closes the errs
channel, and a second `Close` runs `close` on an already-closed channel,
which panics in Go instead of returning as a no-op. -/
theorem sessionClose_second_call_panics :
    sessionCloseModel ChanState.openCh = Except.ok ChanState.closedCh ∧
    sessionCloseModel ChanState.closedCh =
      Except.error "close of closed channel" :=
  ⟨rfl, rfl⟩

/-- Claim C2, counterexample: on a concrete client stream that is not
yet half-closed, `streamRelay.Close` does not half-close the stream
while `unicastRelay.Close` does — the claim assigns the behaviours to
the opposite variants. -/
theorem relayClose_variants_swapped :
    (streamRelayClose ⟨true, false⟩).1.halfClosed = false ∧
    (unicastRelayClose ⟨true, false⟩).1.halfClosed = true :=
  ⟨rfl, rfl⟩

/-- Claim C2, amended: `unicastRelay.Close` issues the half-close of
the underlying stream (when the stream is a client stream), while
`streamRelay.Close` is a no-op; both are idempotent and return no
error. -/
theorem relayClose_amended (st : StreamState) (h : st.isClientStream = true) :
    streamRelayClose st = (st, none) ∧
    streamRelayClose (streamRelayClose st).1 = (st, none) ∧
    (unicastRelayClose st).1.halfClosed = true ∧
    (unicastRelayClose st).2 = none ∧
    unicastRelayClose (unicastRelayClose st).1 =
      ((unicastRelayClose st).1, none) := by
  refine ⟨rfl, rfl, ?_, ?_, ?_⟩ <;> simp [unicastRelayClose, closeSend, h]

/-- Witness for the amended claim C2 at a concrete client stream. -/
theorem relayClose_amended_witness :
    streamRelayClose ⟨true, false⟩ = (⟨true, false⟩, none) ∧
    (unicastRelayClose ⟨true, false⟩).1.halfClosed = true :=
  ⟨(relayClose_amended ⟨true, false⟩ rfl).1,
    (relayClose_amended ⟨true, false⟩ rfl).2.2.1⟩

/-- Claim C3: for every `Send` call, whatever the outcome of
serialization, routing, relay setup or relay sends recorded in the
environment, the trace of the returned error channel is a list of error
events followed by exactly one close event: the channel is closed
exactly once, after every leg has delivered or reported its error. -/
theorem send_channel_closed_once (me : Address) (env : SendEnv) :
    (∃ es : List ErrMsg,
      (sendModel me env).trace = es.map ChanEvent.err ++ [ChanEvent.closed]) ∧
    (sendModel me env).trace.count ChanEvent.closed = 1 := by
  have main : ∃ es : List ErrMsg,
      (sendModel me env).trace = es.map ChanEvent.err ++ [ChanEvent.closed] := by
    cases h : env.serializeRes with
    | error e => exact ⟨[serializeFailMsg e], by simp [sendModel, h]⟩
    | ok d =>
      refine ⟨(trySendParents me env.parents).1
        ++ (if (trySendParents me env.parents).2.2 then []
            else [packetIgnoredMsg]), ?_⟩
      cases hb : (trySendParents me env.parents).2.2 <;>
        simp [sendModel, h, hb]
  refine ⟨main, ?_⟩
  obtain ⟨es, hes⟩ := main
  simp [hes, count_closed_map_err]

/-- Claim C4: when the message serializes and no parent accepts the
packet (a refused `sendPacket` pushes no error, and a session may have
zero parents), `Send` pushes exactly the single `"packet ignored"`
error and closes the channel. -/
theorem send_packet_ignored (me : Address) (env : SendEnv) (d : List Nat)
    (hser : env.serializeRes = Except.ok d)
    (hall : ∀ p ∈ env.parents, (sendPacketModel me p).2 = false) :
    (sendModel me env).trace =
      [ChanEvent.err packetIgnoredMsg, ChanEvent.closed] := by
  have h := trySendParents_all_false me env.parents hall
  have h1 : (trySendParents me env.parents).1 = [] := by
    simpa using congrArg Prod.fst h
  have h2 : (trySendParents me env.parents).2.2 = false := by
    simpa using congrArg (fun r => r.2.2) h
  simp [sendModel, hser, h1, h2]

/-- Witness for claim C4: a session with one parent whose routing table
returns no routes and no voids for a packet with no local slice. -/
theorem send_packet_ignored_witness :
    (sendModel (Address.base 0)
      ⟨Except.ok [], [], [PacketEnv.mk none none [] RouteList.nil]⟩).trace =
      [ChanEvent.err packetIgnoredMsg, ChanEvent.closed] :=
  send_packet_ignored (Address.base 0)
    ⟨Except.ok [], [], [PacketEnv.mk none none [] RouteList.nil]⟩ [] rfl
    (by
      intro p hp
      rw [List.mem_singleton] at hp
      subst hp
      rfl)

/-- Claim C5: when the message fails to serialize, the channel yields
exactly the serialization error and closes, and no side effect is
performed: no queue push, no relay setup, no relay send. -/
theorem send_serialize_failure (me : Address) (env : SendEnv) (e : ErrMsg)
    (h : env.serializeRes = Except.error e) :
    (sendModel me env).trace =
      [ChanEvent.err (serializeFailMsg e), ChanEvent.closed] ∧
    (sendModel me env).effects = [] := by
  simp [sendModel, h]

/-- Witness for claim C5 at a concrete failing serialization. -/
theorem send_serialize_failure_witness :
    (sendModel (Address.base 0)
      ⟨Except.error "boom", [Address.base 1], []⟩).trace =
      [ChanEvent.err (serializeFailMsg "boom"), ChanEvent.closed] ∧
    (sendModel (Address.base 0)
      ⟨Except.error "boom", [Address.base 1], []⟩).effects = [] :=
  send_serialize_failure (Address.base 0)
    ⟨Except.error "boom", [Address.base 1], []⟩ "boom" rfl

/-- Claim C6: when `Forward` returns empty routes and empty voids,
`sendPacket` returns true exactly when `Slice(me)` produced a local
slice; in particular it returns false when nothing was sliced
locally. -/
theorem sendPacket_pure_local (me : Address) (slice : Option Packet)
    (pushErr : Option ErrMsg) :
    (sendPacketModel me (PacketEnv.mk slice pushErr [] RouteList.nil)).2 =
      slice.isSome := by
  cases slice <;> simp [sendPacketModel]

/-- Claim C7: `RecvPacket` deserializes the wire packet, tries the
parents in iteration order stopping at the first whose `sendPacket`
returns true, and returns an ack listing exactly the errors pushed on
the error channel during that send; when no parent accepts it returns
the error naming the number of parents. -/
theorem recvPacket_first_accepting (me : Address) (env : RecvPacketEnv)
    (pkt : Packet) (h : env.deserializeRes = Except.ok pkt) :
    (∀ pre acc post, env.parents = pre ++ acc :: post →
      (∀ p ∈ pre, (sendPacketModel me p).2 = false) →
      (sendPacketModel me acc).2 = true →
      recvPacketModel me env = Except.ok (sendPacketModel me acc).1) ∧
    ((∀ p ∈ env.parents, (sendPacketModel me p).2 = false) →
      recvPacketModel me env =
        Except.error (packetDroppedMsg env.parents.length)) := by
  constructor
  · intro pre acc post hsplit hpre hacc
    have := tryRecvParents_first me pre acc post hpre hacc
    simp [recvPacketModel, h, hsplit, this]
  · intro hall
    have := tryRecvParents_none me env.parents hall
    simp [recvPacketModel, h, this]

/-- Witness for claim C7: one parent that accepts with a local slice
and no further route. -/
theorem recvPacket_first_accepting_witness :
    recvPacketModel (Address.base 0)
      ⟨Except.ok ⟨Address.base 1, [Address.base 0], []⟩,
        [PacketEnv.mk (some ⟨Address.base 1, [Address.base 0], []⟩) none []
          RouteList.nil]⟩ = Except.ok [] :=
  (recvPacket_first_accepting (Address.base 0)
      ⟨Except.ok ⟨Address.base 1, [Address.base 0], []⟩,
        [PacketEnv.mk (some ⟨Address.base 1, [Address.base 0], []⟩) none []
          RouteList.nil]⟩
      ⟨Address.base 1, [Address.base 0], []⟩ rfl).1
    [] (PacketEnv.mk (some ⟨Address.base 1, [Address.base 0], []⟩) none []
      RouteList.nil) [] rfl
    (by intro p hp; exact absurd hp (List.not_mem_nil p)) rfl

/-- Claim C8: the latest counter read by `GetLatest` is monotonically
non-decreasing: after any prefix of the serialized sequence of handler
updates, the value is at most the value after any longer prefix,
because each update stores the announced index only when it is strictly
greater — an atomic max update. -/
theorem getLatest_monotone (init : Nat) (anns : List Nat) (j k : Nat)
    (h : j ≤ k) :
    latestAfter init (anns.take j) ≤ latestAfter init (anns.take k) ∧
    (∀ cur a : Nat, updateLatest cur a = max cur a) := by
  constructor
  · have htake : anns.take j = (anns.take k).take j := by
      rw [List.take_take, Nat.min_eq_left h]
    have hsplit : anns.take k =
        (anns.take k).take j ++ (anns.take k).drop j := by
      rw [List.take_append_drop]
    unfold latestAfter
    rw [htake]
    conv_rhs => rw [hsplit]
    rw [List.foldl_append]
    exact le_foldl_updateLatest _ _
  · intro cur a
    unfold updateLatest
    by_cases hc : a > cur
    · simp [hc, Nat.max_eq_right (Nat.le_of_lt hc)]
    · simp [hc, Nat.max_eq_left (Nat.le_of_not_lt hc)]

/-- Witness for claim C8 at a concrete update sequence. -/
theorem getLatest_monotone_witness :
    latestAfter 2 ([5, 3, 7].take 1) ≤ latestAfter 2 ([5, 3, 7].take 3) ∧
    updateLatest 2 5 = max 2 5 :=
  ⟨(getLatest_monotone 2 [5, 3, 7] 1 3 (by decide)).1,
    (getLatest_monotone 2 [5, 3, 7] 1 3 (by decide)).2 2 5⟩

/-- Claim C9: the address slice seen by the caller after `Send` (the
variadic slice shares its backing array) is the input slice with every
wrapped address replaced in place by its inner address, and every other
address left unchanged; an address produced by `Recv` is wrapped, so
unwrapping restores the original source identity. -/
theorem send_unwraps_addrs (me : Address) (env : SendEnv) :
    (sendModel me env).finalAddrs = env.addrs.map unwrapOne ∧
    (∀ a : Address, unwrapOne (newWrapAddress a) = a) ∧
    (∀ n : Nat, unwrapOne (Address.base n) = Address.base n) := by
  refine ⟨?_, fun a => rfl, fun n => rfl⟩
  cases h : env.serializeRes <;> simp [sendModel, h]

/-- Claim C10: when the announcement broadcast reports any
per-destination error, `routine` returns before receiving anything, so
the channel returned by `Sync` is closed without any event having been
published: one unreachable player aborts the whole synchronization. -/
theorem sync_aborts_on_announce_error (env : RoutineEnv) (e : ErrMsg)
    (rest : List ErrMsg) (hs : env.streamErr = none)
    (ha : env.annErrs = e :: rest) :
    routineModel env = ([], some ("announcement failed: " ++ e)) ∧
    (syncModel env).1 = [] ∧ (syncModel env).2 = true := by
  simp [routineModel, syncModel, hs, ha]

/-- Witness for claim C10 at a concrete environment with one failing
announcement leg. -/
theorem sync_aborts_on_announce_error_witness :
    routineModel
      ⟨none, ["unreachable"], 3, [], fun _ _ => none⟩ =
      ([], some ("announcement failed: " ++ "unreachable")) :=
  (sync_aborts_on_announce_error
    ⟨none, ["unreachable"], 3, [], fun _ _ => none⟩ "unreachable" [] rfl rfl).1

end Dela
